import Mathlib

/-!
# Verification of the Harmonious acoustic codec

Shallow embedding of the audio FSK codec implemented in
`src/utils/audioCodec.ts` (the slow "whale" variant) and the second half of
`src/utils/arduinoService.ts` (the fast variant).  Both variants share the
same code structure and differ only in their numeric constants and character
tables, so the embedding is parametrised by a `CodecConfig` record and the
two variants are concrete instances (`slowCodec`, `fastCodec`).

Frequencies and times-in-seconds are modelled as rationals (`ℚ`): the
JavaScript source computes `binFrequency = maxBin * sampleRate /
(frequencyData.length * 2)` in floating point, which is exact for the
power-of-two FFT lengths used in practice, and every comparison in the code
is a plain order comparison, faithfully mirrored on `ℚ`.  Millisecond
timestamps (`Date.now()`) are modelled as `Int`.

The bundled `Rat` arithmetic operations are `@[irreducible]`, which blocks
kernel evaluation (`decide`) on concrete inputs, so the embedding uses
definitionally transparent wrappers `qadd`/`qsub`/`qabs` (proved equal to
`+`/`-`/`|·|` below) and `mkRat` for non-integer literals.
-/

/-! ## Computable rational helpers -/

/-- Addition on `ℚ`, written so that it evaluates inside the kernel. -/
def qadd (a b : ℚ) : ℚ := mkRat (a.num * b.den + b.num * a.den) (a.den * b.den)

/-- Subtraction on `ℚ`, written so that it evaluates inside the kernel. -/
def qsub (a b : ℚ) : ℚ := mkRat (a.num * b.den - b.num * a.den) (a.den * b.den)

/-- `Math.abs` on `ℚ`, written so that it evaluates inside the kernel. -/
def qabs (a : ℚ) : ℚ := if a < 0 then -a else a

theorem qadd_eq (a b : ℚ) : qadd a b = a + b := by
  rw [Rat.add_def]
  simp [qadd, mkRat, Nat.mul_ne_zero a.den_nz b.den_nz]

theorem qsub_eq (a b : ℚ) : qsub a b = a - b := by
  rw [Rat.sub_def]
  simp [qsub, mkRat, Nat.mul_ne_zero a.den_nz b.den_nz]

theorem qabs_eq (a : ℚ) : qabs a = |a| := by
  unfold qabs
  split
  · exact (abs_of_neg (by assumption)).symm
  · exact (abs_of_nonneg (le_of_not_lt (by assumption))).symm

/-! ## Detection thresholds (identical in both variants) -/

/-- Constant `FREQUENCY_TOLERANCE = 45`, identical in both codec files. -/
def FREQUENCY_TOLERANCE : ℚ := 45

/-- Constant `SIGNAL_THRESHOLD = 135`, identical in both codec files; snapshot magnitudes are
0–255 bytes, modelled as `ℕ`. -/
def SIGNAL_THRESHOLD : ℕ := 135

/-- Constant `MINIMUM_VALID_FREQUENCY = 400`, identical in both codec files. -/
def MINIMUM_VALID_FREQUENCY : ℚ := 400

/-- Constant `MAXIMUM_VALID_FREQUENCY = 8300`, identical in both codec files. -/
def MAXIMUM_VALID_FREQUENCY : ℚ := 8300

/-! ## Per-variant configuration

Each field embeds the constant of the same name from the corresponding
source file.  `recentFilterWindow` and `transmissionTimeout` embed the
inline literals of `shouldAddCharacter` (`2000` / `450` ms) and of the
timeout check in `decodeAudio` (`50000` / `15000` ms). -/

structure CodecConfig where
  START_FREQUENCY : ℚ
  END_FREQUENCY : ℚ
  START_MARKER_DURATION : ℚ
  END_MARKER_DURATION : ℚ
  CHARACTER_DURATION : ℚ
  CHARACTER_GAP : ℚ
  VOLUME : ℚ
  DEBOUNCE_TIME : Int
  CHARACTER_LOCKOUT_TIME : Int
  recentFilterWindow : Int
  transmissionTimeout : Int
  CHAR_FREQUENCIES : List (Char × ℚ)
  deriving Repr, DecidableEq

/-- Table `CHAR_FREQUENCIES` of `audioCodec.ts` (slow/whale variant), in source
insertion order: space, `A`–`Z`, `*`. -/
def slowCharFrequencies : List (Char × ℚ) :=
  [(' ', 900),
   ('A', 500), ('B', 600), ('C', 700), ('D', 1100), ('E', 1200), ('F', 1300),
   ('G', 1400), ('H', 1500), ('I', 1600), ('J', 1700),
   ('K', 1800), ('L', 1900), ('M', 2000), ('N', 2100), ('O', 2200),
   ('P', 2300), ('Q', 2400), ('R', 2500), ('S', 2600), ('T', 2700),
   ('U', 2800), ('V', 2900), ('W', 3000), ('X', 3100), ('Y', 3200),
   ('Z', 3300), ('*', 5000)]

/-- Table `CHAR_FREQUENCIES` of the fast variant (`arduinoService.ts` codec half),
in source insertion order. -/
def fastCharFrequencies : List (Char × ℚ) :=
  [(' ', 900),
   ('!', 1300), ('@', 1400), ('#', 1500), ('$', 1600), ('%', 1700),
   ('^', 1800), ('&', 1900), ('*', 2000),
   ('(', 2100), (')', 2200), ('-', 2300), ('_', 2400), ('+', 2600),
   ('=', 2800), ('\x7b', 2900), ('\x7d', 3000),
   ('[', 3100), (']', 3200), ('|', 3300), ('\x5c', 3400), (':', 3500),
   (';', 3600), ('\x22', 3700), ('\x27', 3800),
   ('<', 3900), ('>', 4000), (',', 4100), ('.', 4200), ('/', 4300),
   ('?', 4400), ('\x60', 4500), ('~', 4600),
   ('0', 4700), ('1', 4800), ('2', 4900), ('3', 5000), ('4', 5100),
   ('5', 5200), ('6', 5300), ('7', 5400), ('8', 5500), ('9', 5600),
   ('A', 5700), ('B', 5800), ('C', 5900), ('D', 6000), ('E', 6100),
   ('F', 6200), ('G', 6300), ('H', 6400), ('I', 6500), ('J', 6600),
   ('K', 6700), ('L', 6800), ('M', 6900), ('N', 7000), ('O', 7100),
   ('P', 7200), ('Q', 7300), ('R', 7400), ('S', 7500), ('T', 7600),
   ('U', 7700), ('V', 7800), ('W', 7900), ('X', 8000), ('Y', 8100),
   ('Z', 8200)]

/-- Constants of `audioCodec.ts` (slow/whale variant). -/
def slowCodec : CodecConfig :=
  { START_FREQUENCY := 1000
    END_FREQUENCY := 800
    START_MARKER_DURATION := mkRat 3 2
    END_MARKER_DURATION := mkRat 3 2
    CHARACTER_DURATION := mkRat 6 5
    CHARACTER_GAP := mkRat 1 2
    VOLUME := mkRat 17 20
    DEBOUNCE_TIME := 350
    CHARACTER_LOCKOUT_TIME := 1800
    recentFilterWindow := 2000
    transmissionTimeout := 50000
    CHAR_FREQUENCIES := slowCharFrequencies }

/-- Constants of the fast variant in `arduinoService.ts`. -/
def fastCodec : CodecConfig :=
  { START_FREQUENCY := 2500
    END_FREQUENCY := 2700
    START_MARKER_DURATION := mkRat 3 25
    END_MARKER_DURATION := mkRat 3 25
    CHARACTER_DURATION := mkRat 7 100
    CHARACTER_GAP := mkRat 3 100
    VOLUME := 1
    DEBOUNCE_TIME := 75
    CHARACTER_LOCKOUT_TIME := 120
    recentFilterWindow := 450
    transmissionTimeout := 15000
    CHAR_FREQUENCIES := fastCharFrequencies }

/-! ## Character/frequency mapping -/

/-- Embeds `charToFrequency`: uppercase the character and look it up in
`CHAR_FREQUENCIES`, defaulting to `0` (the `|| 0` in the source). -/
def charToFrequency (table : List (Char × ℚ)) (char : Char) : ℚ :=
  ((table.find? (fun p => p.1 = char.toUpper)).map Prod.snd).getD 0

/-- Embeds `frequencyToChar`: first table entry (insertion order) whose frequency
lies strictly within `FREQUENCY_TOLERANCE` of the input, else `null`. -/
def frequencyToChar (table : List (Char × ℚ)) (frequency : ℚ) : Option Char :=
  (table.find? (fun p => qabs (qsub frequency p.2) < FREQUENCY_TOLERANCE)).map Prod.fst

/-! ## Decoder session state

The module-level mutable variables of the codec files, bundled into a record
that `decodeAudio` threads explicitly.  `charFrequencyCounts` is only ever
cleared by the source (never read), and is modelled as an association list. -/

structure DecoderState where
  isReceivingMessage : Bool
  messageBuffer : String
  startMarkerDetectionCount : ℕ
  endMarkerDetectionCount : ℕ
  lastDetectedFrequency : ℚ
  lastDetectedTime : Int
  lastDetectedChar : String
  transmissionStartTime : Int
  recentCharacters : List (Char × Int)
  charFrequencyCounts : List (Char × ℕ)
  deriving Repr, DecidableEq

/-- The initial decoder session, which is also exactly the state installed by
`resetDecoder` in both codec files. -/
def resetDecoder : DecoderState :=
  { isReceivingMessage := false
    messageBuffer := ""
    startMarkerDetectionCount := 0
    endMarkerDetectionCount := 0
    lastDetectedFrequency := 0
    lastDetectedTime := 0
    lastDetectedChar := ""
    transmissionStartTime := 0
    recentCharacters := []
    charFrequencyCounts := [] }

/-- Embeds `isCommonRepeatingChar`: the allow-list of commonly legitimately
repeating letters (identical in both variants). -/
def isCommonRepeatingChar (char : Char) : Bool :=
  ['E', 'L', 'O', 'T', 'M', 'S', 'P', 'A'].contains char

/-- The character class of the regex
`[-_+=$&@#%^*(){}[\]|\\:;"'<>,.?/]` tested by `shouldAddCharacter`. -/
def isSpecialChar (char : Char) : Bool :=
  ['-', '_', '+', '=', '$', '&', '@', '#', '%', '^', '*', '(', ')',
   '\x7b', '\x7d', '[', ']', '|', '\x5c', ':', ';', '\x22', '\x27',
   '<', '>', ',', '.', '?', '/'].contains char

/-- Embeds `shouldAddCharacter`.  The source mutates the module-level
`recentCharacters`; here the (filtered, possibly extended) list is returned
alongside the accept/reject verdict.  The second guard embeds the source's
backwards loop over at most the last 4 entries, which counts the trailing
run of entries equal to `char` and rejects as soon as the count reaches 3:
that fires exactly when the last `min run 4 ≥ 3` retained entries equal
`char`. -/
def shouldAddCharacter (cfg : CodecConfig) (recentCharacters : List (Char × Int))
    (char : Char) (now : Int) : List (Char × Int) × Bool :=
  let recent := recentCharacters.filter (fun entry => now - entry.2 < cfg.recentFilterWindow)
  if recent.any (fun entry => entry.1 = char ∧ now - entry.2 < cfg.CHARACTER_LOCKOUT_TIME) then
    (recent, false)
  else if 3 ≤ min (recent.reverse.takeWhile (fun entry => entry.1 = char)).length 4 ∧
      char ≠ ' ' ∧ ¬isCommonRepeatingChar char then
    (recent, false)
  else if isSpecialChar char ∧ recent.any (fun entry => entry.1 = char ∧ now - entry.2 < 350) then
    (recent, false)
  else
    (recent ++ [(char, now)], true)

/-- Embeds `postProcessMessage`, the identity in both codec files. -/
def postProcessMessage (message : String) : String := message

/-- Peak extraction loop of `decodeAudio`: maximum-magnitude bin, first
maximum wins (the source only replaces on strict `>`).  Returns
`(maxBin, maxValue)`. -/
def findPeak (frequencyData : List ℕ) : ℕ × ℕ :=
  frequencyData.enum.foldl
    (fun acc p => if p.2 > acc.2 then (p.1, p.2) else acc) (0, 0)

/-- Computes `binFrequency = maxBin * sampleRate / (frequencyData.length * 2)`.
Sample rates are integral (44100/48000 Hz), so the quotient is modelled as
an exact rational. -/
def binFrequencyOf (frequencyData : List ℕ) (sampleRate : ℕ) : ℚ :=
  mkRat ((findPeak frequencyData).1 * sampleRate) (frequencyData.length * 2)

/-- Everything in `decodeAudio` after the peak / valid-range / debounce
gates and the `lastDetected` update: the timeout check, the start-marker and
end-marker confirmation logic and the character branch (the trailing
`return null` of the source is the final `else`). -/
def decodeDetection (cfg : CodecConfig) (binFrequency : ℚ) (maxValue : ℕ)
    (now : Int) (st : DecoderState) : DecoderState × Option String :=
  if st.isReceivingMessage ∧ now - st.transmissionStartTime > cfg.transmissionTimeout then
    let message := st.messageBuffer
    let st' := { st with isReceivingMessage := false, messageBuffer := "",
                         charFrequencyCounts := [] }
    if message.length > 0 then
      (st', some ("[STREAM_END] " ++ message ++ " (timeout)"))
    else
      (st', some "[STREAM_END] (timeout)")
  else if ¬st.isReceivingMessage ∧
      qabs (qsub binFrequency cfg.START_FREQUENCY) < FREQUENCY_TOLERANCE ∧
      maxValue > SIGNAL_THRESHOLD then
    if st.startMarkerDetectionCount + 1 ≥ 2 then
      ({ st with isReceivingMessage := true, messageBuffer := "",
                 transmissionStartTime := now, startMarkerDetectionCount := 0,
                 recentCharacters := [], charFrequencyCounts := [] },
       some "[STREAM_START]")
    else
      ({ st with startMarkerDetectionCount := st.startMarkerDetectionCount + 1 }, none)
  else
    -- `else if (!isReceivingMessage) { startMarkerDetectionCount = 0; }`,
    -- after which control falls through to the end-marker / character chain.
    let st := if ¬st.isReceivingMessage then { st with startMarkerDetectionCount := 0 } else st
    if st.isReceivingMessage ∧
        qabs (qsub binFrequency cfg.END_FREQUENCY) < FREQUENCY_TOLERANCE ∧
        maxValue > SIGNAL_THRESHOLD then
      if st.endMarkerDetectionCount + 1 ≥ 2 then
        let message := st.messageBuffer
        let st' := { st with isReceivingMessage := false, messageBuffer := "",
                             endMarkerDetectionCount := 0, recentCharacters := [],
                             charFrequencyCounts := [] }
        let processedMessage := postProcessMessage message
        if processedMessage.length > 0 then
          (st', some ("[STREAM_END] " ++ processedMessage))
        else
          (st', some "[STREAM_END]")
      else
        ({ st with endMarkerDetectionCount := st.endMarkerDetectionCount + 1 }, none)
    else if st.isReceivingMessage then
      let st := { st with endMarkerDetectionCount := 0 }
      if MINIMUM_VALID_FREQUENCY ≤ binFrequency ∧ binFrequency ≤ MAXIMUM_VALID_FREQUENCY then
        match frequencyToChar cfg.CHAR_FREQUENCIES binFrequency with
        | some char =>
          let upperChar := char.toUpper
          let result := shouldAddCharacter cfg st.recentCharacters upperChar now
          if result.2 then
            ({ st with recentCharacters := result.1,
                       messageBuffer := st.messageBuffer.push upperChar,
                       lastDetectedChar := String.mk [upperChar] },
             some ("[STREAM]".push upperChar))
          else
            ({ st with recentCharacters := result.1 }, none)
        | none => (st, none)
      else (st, none)
    else (st, none)

/-- Embeds `decodeAudio`: one analysis tick.  The source mutates module state and
returns `string | null`; here the updated `DecoderState` is returned next to
the event.  The gates appear in source order: signal threshold, valid
frequency range, temporal debounce, then the `lastDetected` update (guarded
by the strict `maxValue > SIGNAL_THRESHOLD`), then `decodeDetection`. -/
def decodeAudio (cfg : CodecConfig) (frequencyData : List ℕ) (sampleRate : ℕ)
    (now : Int) (st : DecoderState) : DecoderState × Option String :=
  let maxValue := (findPeak frequencyData).2
  if maxValue < SIGNAL_THRESHOLD then (st, none)
  else
    let binFrequency := binFrequencyOf frequencyData sampleRate
    if binFrequency < MINIMUM_VALID_FREQUENCY ∨ binFrequency > MAXIMUM_VALID_FREQUENCY then
      (st, none)
    else if qabs (qsub binFrequency st.lastDetectedFrequency) < 15 ∧
        now - st.lastDetectedTime < cfg.DEBOUNCE_TIME then
      (st, none)
    else
      decodeDetection cfg binFrequency maxValue now
        (if maxValue > SIGNAL_THRESHOLD then
          { st with lastDetectedFrequency := binFrequency, lastDetectedTime := now }
         else st)

/-! ## Encoder: tone schedule -/

/-- One scheduled tone: `(frequency, startTime, duration)` as in the spec's
`TransmissionSchedule`.  When `USE_PARALLEL_TONES` is on (fast variant) each
character tone is doubled by a second oscillator at a fixed offset; that
doubling is timbre-shaping and carries the same timing, so the schedule
records the primary tone events. -/
structure Tone where
  frequency : ℚ
  startTime : ℚ
  duration : ℚ
  deriving Repr, DecidableEq

/-- The character-tone part of `encodeText`'s schedule: one tone of
`CHARACTER_DURATION` per supported character, advancing `currentTime` by
`CHARACTER_DURATION + CHARACTER_GAP` after each; unsupported characters
(`charToFrequency = 0`) are skipped without advancing time.  Returns the
tones and the final `currentTime`. -/
def scheduleChars (cfg : CodecConfig) : List Char → ℚ → List Tone × ℚ
  | [], t => ([], t)
  | c :: rest, t =>
    let frequency := charToFrequency cfg.CHAR_FREQUENCIES c
    if frequency = 0 then
      scheduleChars cfg rest t
    else
      let next := scheduleChars cfg rest (qadd t (qadd cfg.CHARACTER_DURATION cfg.CHARACTER_GAP))
      (⟨frequency, t, cfg.CHARACTER_DURATION⟩ :: next.1, next.2)

/-- The complete tone schedule produced by `encodeText` starting from
`audioContext.currentTime = startTime`: `+0.03`, start marker, `+0.03`,
character tones, `+0.03`, end marker. -/
def encodeSchedule (cfg : CodecConfig) (text : List Char) (startTime : ℚ) : List Tone :=
  let t1 := qadd startTime (mkRat 3 100)
  let t2 := qadd (qadd t1 cfg.START_MARKER_DURATION) (mkRat 3 100)
  let cs := scheduleChars cfg (text.map Char.toUpper) t2
  ⟨cfg.START_FREQUENCY, t1, cfg.START_MARKER_DURATION⟩ ::
    (cs.1 ++ [⟨cfg.END_FREQUENCY, qadd cs.2 (mkRat 3 100), cfg.END_MARKER_DURATION⟩])

/-! ## Transmission pause state (slow/whale variant only) -/

/-- One entry of the `activeOscillators` array: the envelope gain value the
oscillator is currently ramped to, and its scheduled stop time. -/
structure OscillatorRecord where
  gainValue : ℚ
  stopTime : ℚ
  deriving Repr, DecidableEq

/-- The module-level pause-tracking variables of `audioCodec.ts`. -/
structure TransmissionState where
  isTransmissionPaused : Bool
  pauseStartTime : ℚ
  totalPausedDuration : ℚ
  activeOscillators : List OscillatorRecord
  deriving Repr, DecidableEq

/-- Embeds `pauseTransmission` (lines 202–218): when not already paused, record the
pause start and force the gain of every tracked oscillator to zero.  The
`activeOscillators` array itself is NOT touched here. -/
def pauseTransmission (now : ℚ) (st : TransmissionState) : TransmissionState :=
  if ¬st.isTransmissionPaused then
    { st with isTransmissionPaused := true, pauseStartTime := now,
              activeOscillators := st.activeOscillators.map (fun o => { o with gainValue := 0 }) }
  else st

/-- Embeds `resumeTransmission` (lines 223–232): accumulate the pause duration,
unpause, and clear the `activeOscillators` list. -/
def resumeTransmission (now : ℚ) (st : TransmissionState) : TransmissionState :=
  if st.isTransmissionPaused then
    { st with totalPausedDuration := qadd st.totalPausedDuration (qsub now st.pauseStartTime),
              isTransmissionPaused := false,
              activeOscillators := [] }
  else st

/-- Embeds `stopAllOscillators`: stop every tracked oscillator and clear the list. -/
def stopAllOscillators (st : TransmissionState) : TransmissionState :=
  { st with activeOscillators := [] }

/-- Embeds `getTransmissionPauseState`. -/
def getTransmissionPauseState (st : TransmissionState) : Bool :=
  st.isTransmissionPaused

/-- Embeds `getTotalPausedDuration`. -/
def getTotalPausedDuration (st : TransmissionState) : ℚ :=
  st.totalPausedDuration

/-! ## Audio backend usability -/

inductive AudioContextState where
  | running
  | suspended
  | closed
  deriving Repr, DecidableEq

/-- Abstract audio backend: its current state, whether `resume()` throws,
and the state observed after a non-throwing `resume()`. -/
structure AudioContextModel where
  state : AudioContextState
  resumeThrows : Bool
  stateAfterResume : AudioContextState
  deriving Repr, DecidableEq

/-- Embeds `ensureAudioContextReady`: `closed` is unusable; `suspended` is resumed,
unusable if `resume()` throws or the state is still `suspended` afterwards;
otherwise ready. -/
def ensureAudioContextReady (ctx : AudioContextModel) : Bool :=
  if ctx.state = AudioContextState.closed then false
  else if ctx.state = AudioContextState.suspended then
    if ctx.resumeThrows then false
    else decide (ctx.stateAfterResume ≠ AudioContextState.suspended)
  else true

/-! ## `encodeText` (slow/whale variant)

The fast variant's `encodeText` is identical except that it has no
pause-session bookkeeping (no reset step, no `activeOscillators` tracking);
both build the schedule embedded by `encodeSchedule`. -/

/-- Lines 275–278 of `audioCodec.ts`: the very first statements of
`encodeText` reset the pause session for the new transmission
(`isTransmissionPaused = false; totalPausedDuration = 0;
activeOscillators = [];`).  `pauseStartTime` is not reset. -/
def encodeTextPauseReset (ts : TransmissionState) : TransmissionState :=
  { isTransmissionPaused := false
    pauseStartTime := ts.pauseStartTime
    totalPausedDuration := 0
    activeOscillators := [] }

/-- The rest of `encodeText` after the pause reset: if the backend is
unusable it resolves immediately with nothing scheduled (`resolve();
return;`); otherwise it schedules the full tone sequence, tracking one
`activeOscillators` entry per character tone (gain enveloped to `VOLUME`,
stop at `currentTime + CHARACTER_DURATION`).  The returned `Except` is the
promise outcome: the source's executor only ever calls `resolve`, so every
path is `Except.ok`. -/
def encodeTextBody (cfg : CodecConfig) (ctx : AudioContextModel) (text : List Char)
    (startTime : ℚ) (ts1 : TransmissionState) :
    TransmissionState × Except String (List Tone) :=
  if ensureAudioContextReady ctx then
    let t2 := qadd (qadd (qadd startTime (mkRat 3 100)) cfg.START_MARKER_DURATION) (mkRat 3 100)
    let cs := scheduleChars cfg (text.map Char.toUpper) t2
    ({ ts1 with activeOscillators := ts1.activeOscillators ++
        cs.1.map (fun tone => ⟨cfg.VOLUME, qadd tone.startTime cfg.CHARACTER_DURATION⟩) },
     Except.ok (encodeSchedule cfg text startTime))
  else
    (ts1, Except.ok [])

/-- Embeds `encodeText` of `audioCodec.ts`: pause-session reset, then the body. -/
def encodeText (cfg : CodecConfig) (ctx : AudioContextModel) (text : List Char)
    (startTime : ℚ) (ts : TransmissionState) :
    TransmissionState × Except String (List Tone) :=
  encodeTextBody cfg ctx text startTime (encodeTextPauseReset ts)

/-! ## C5: character/frequency round-trip -/

/-- C5: for every supported character `c` (every key of `CHAR_FREQUENCIES`,
in both the slow/whale and the fast codec variant),
`frequencyToChar (charToFrequency c) = c`: the character-to-frequency
mapping round-trips through the tolerance-based inverse lookup. -/
theorem char_frequency_roundtrip :
    (slowCodec.CHAR_FREQUENCIES.all (fun p =>
        frequencyToChar slowCodec.CHAR_FREQUENCIES
          (charToFrequency slowCodec.CHAR_FREQUENCIES p.1) = some p.1) = true) ∧
    (fastCodec.CHAR_FREQUENCIES.all (fun p =>
        frequencyToChar fastCodec.CHAR_FREQUENCIES
          (charToFrequency fastCodec.CHAR_FREQUENCIES p.1) = some p.1) = true) := by
  constructor <;> decide

/-! ## C7: pauseTransmission -/

/-- C7 (counterexample): with one tracked oscillator and a transmission that
is not paused, `pauseTransmission` leaves `activeOscillators` non-empty (it
only zeroes the gains); the list is cleared by `resumeTransmission` /
`stopAllOscillators`, not by the pause itself. -/
theorem pauseTransmission_counterexample :
    (⟨false, 0, 0, [⟨mkRat 17 20, 5⟩]⟩ : TransmissionState).isTransmissionPaused = false ∧
    (pauseTransmission 1 ⟨false, 0, 0, [⟨mkRat 17 20, 5⟩]⟩).activeOscillators ≠ [] := by
  decide

/-- C7 (amended): when a transmission is in progress and not already paused,
`pauseTransmission` forces the gain of every tracked active oscillator to
zero and leaves the record of active oscillators in place (same length);
the record is cleared by the subsequent `resumeTransmission`, not by the
pause operation itself. -/
theorem pauseTransmission_zero_gain (now now' : ℚ) (st : TransmissionState)
    (h : st.isTransmissionPaused = false) :
    (pauseTransmission now st).isTransmissionPaused = true ∧
    (∀ o ∈ (pauseTransmission now st).activeOscillators, o.gainValue = 0) ∧
    (pauseTransmission now st).activeOscillators.length = st.activeOscillators.length ∧
    (resumeTransmission now' (pauseTransmission now st)).activeOscillators = [] := by
  unfold pauseTransmission resumeTransmission
  simp [h]

theorem pauseTransmission_zero_gain_witness :
    (pauseTransmission 1 ⟨false, 0, 0, [⟨mkRat 17 20, 5⟩]⟩).isTransmissionPaused = true ∧
    (resumeTransmission 2 (pauseTransmission 1 ⟨false, 0, 0, [⟨mkRat 17 20, 5⟩]⟩)).activeOscillators
      = [] :=
  ⟨(pauseTransmission_zero_gain 1 2 _ (by decide)).1,
   (pauseTransmission_zero_gain 1 2 _ (by decide)).2.2.2⟩

/-! ## C8: unusable audio backend -/

/-- C8: for every input text, if the audio backend is unusable
(`AudioContext` closed, or suspended and `resume()` fails), `encodeText`
aborts immediately: it schedules no tones and resolves its promise normally
(`Except.ok []`), signalling no error to the caller. -/
theorem encodeText_unusable_backend_noop (cfg : CodecConfig) (ctx : AudioContextModel)
    (text : List Char) (startTime : ℚ) (ts : TransmissionState)
    (h : ctx.state = AudioContextState.closed ∨
         (ctx.state = AudioContextState.suspended ∧ ctx.resumeThrows = true)) :
    (encodeText cfg ctx text startTime ts).2 = Except.ok [] := by
  have hready : ensureAudioContextReady ctx = false := by
    unfold ensureAudioContextReady
    rcases h with h | ⟨h1, h2⟩
    · simp [h]
    · simp [h1, h2]
  unfold encodeText encodeTextBody
  simp [hready]

theorem encodeText_unusable_backend_noop_witness :
    (encodeText slowCodec ⟨AudioContextState.closed, false, AudioContextState.running⟩
        ['H', 'I'] 0 ⟨false, 0, 0, []⟩).2 = Except.ok [] :=
  encodeText_unusable_backend_noop slowCodec _ ['H', 'I'] 0 ⟨false, 0, 0, []⟩ (Or.inl rfl)

/-! ## C10: encodeText resets the pause session -/

/-- C10: every call to `encodeText` (slow/whale variant) begins by resetting
the pause-related session state: before any tone is scheduled the state is
`encodeTextPauseReset ts`, in which `isTransmissionPaused = false`,
`totalPausedDuration = 0` and `activeOscillators = []` (so a pause from a
previous transmission never carries over) and `getTotalPausedDuration`
reports `0` for the fresh transmission. -/
theorem encodeText_resets_pause_session (cfg : CodecConfig) (ctx : AudioContextModel)
    (text : List Char) (startTime : ℚ) (ts : TransmissionState) :
    (encodeTextPauseReset ts).isTransmissionPaused = false ∧
    (encodeTextPauseReset ts).totalPausedDuration = 0 ∧
    (encodeTextPauseReset ts).activeOscillators = [] ∧
    getTotalPausedDuration (encodeTextPauseReset ts) = 0 ∧
    encodeText cfg ctx text startTime ts
      = encodeTextBody cfg ctx text startTime (encodeTextPauseReset ts) :=
  ⟨rfl, rfl, rfl, rfl, rfl⟩

/-! ## C3: consecutive-repeat rejection -/

/-- C3 (counterexample): a state whose last two retained entries already
equal `'B'` (not a space, not on the allow-list, both old enough to escape
the lockout window) is still accepted by `shouldAddCharacter`: the source
only rejects once the trailing run reaches 3, i.e. it allows the 3rd
consecutive repeat and rejects the 4th. -/
theorem shouldAddCharacter_two_repeat_counterexample :
    (([('B', 8100), ('B', 8150)] : List (Char × Int)).filter
        (fun entry => (10000 : Int) - entry.2 < slowCodec.recentFilterWindow)
      = [('B', 8100), ('B', 8150)]) ∧
    'B' ≠ ' ' ∧ isCommonRepeatingChar 'B' = false ∧
    (shouldAddCharacter slowCodec [('B', 8100), ('B', 8150)] 'B' 10000).2 = true := by
  decide

/-- C3 (amended): `shouldAddCharacter` rejects a character when accepting it
would make it a 4th-or-more consecutive repeat, i.e. when the last three
retained entries of the recent-character window already equal `c` (with `c`
not a space and not on the allow-list of commonly repeating letters),
`shouldAddCharacter c` returns `false`. -/
theorem shouldAddCharacter_fourth_repeat_reject (cfg : CodecConfig)
    (recentCharacters : List (Char × Int)) (char : Char) (now : Int)
    (hspace : char ≠ ' ') (hcommon : isCommonRepeatingChar char = false)
    (h3 : 3 ≤ ((recentCharacters.filter
        (fun entry => now - entry.2 < cfg.recentFilterWindow)).reverse.takeWhile
        (fun entry => entry.1 = char)).length) :
    (shouldAddCharacter cfg recentCharacters char now).2 = false := by
  unfold shouldAddCharacter
  dsimp only
  split_ifs with h1 h2 h3'
  · rfl
  · rfl
  · rfl
  · exact absurd ⟨le_min h3 (by norm_num), hspace, by simp [hcommon]⟩ h2

theorem shouldAddCharacter_fourth_repeat_reject_witness :
    ('B' ≠ ' ') ∧ (isCommonRepeatingChar 'B' = false) ∧
    (shouldAddCharacter slowCodec [('B', 9000), ('B', 9100), ('B', 9200)] 'B' 9500).2 = false :=
  ⟨by decide, by decide,
   shouldAddCharacter_fourth_repeat_reject slowCodec [('B', 9000), ('B', 9100), ('B', 9200)]
     'B' 9500 (by decide) (by decide) (by decide)⟩

/-! ## C4: character lockout window -/

theorem length_stream_push (c : Char) : ("[STREAM]".push c).length = 9 := by
  rw [String.length_push]
  decide

theorem push_stream_injective (u c : Char) (h : "[STREAM]".push u = "[STREAM]".push c) :
    u = c := by
  have h2 := congrArg String.data h
  simp [String.push] at h2
  exact h2

/-- Any character accepted within the lockout window forces a rejection:
the window filter keeps every entry younger than the lockout time (the
filter window is at least as long as the lockout in both variants), and the
first loop of `shouldAddCharacter` then rejects the duplicate. -/
theorem shouldAddCharacter_lockout (cfg : CodecConfig) (recent : List (Char × Int))
    (char : Char) (t now : Int)
    (hmem : (char, t) ∈ recent) (hlock : now - t < cfg.CHARACTER_LOCKOUT_TIME)
    (hwin : cfg.CHARACTER_LOCKOUT_TIME ≤ cfg.recentFilterWindow) :
    (shouldAddCharacter cfg recent char now).2 = false := by
  have hany : ((recent.filter (fun entry => now - entry.2 < cfg.recentFilterWindow)).any
      (fun entry => entry.1 = char ∧ now - entry.2 < cfg.CHARACTER_LOCKOUT_TIME)) = true := by
    rw [List.any_eq_true]
    refine ⟨(char, t), ?_, ?_⟩
    · rw [List.mem_filter]
      refine ⟨hmem, ?_⟩
      simp only [decide_eq_true_eq]
      omega
    · simp only [decide_eq_true_eq]
      exact ⟨trivial, hlock⟩
  unfold shouldAddCharacter
  dsimp only
  split_ifs
  rfl

theorem stream_end_timeout_ne (m : String) (c : Char) :
    some ("[STREAM_END] " ++ m ++ " (timeout)") ≠ some ("[STREAM]".push c) := by
  intro h
  injection h with h
  have hl := congrArg String.length h
  rw [length_stream_push] at hl
  simp only [String.length_append] at hl
  have h1 : ("[STREAM_END] " : String).length = 13 := by decide
  have h2 : (" (timeout)" : String).length = 10 := by decide
  omega

theorem stream_end_timeout_empty_ne (c : Char) :
    some ("[STREAM_END] (timeout)" : String) ≠ some ("[STREAM]".push c) := by
  intro h
  injection h with h
  have hl := congrArg String.length h
  rw [length_stream_push] at hl
  have h1 : ("[STREAM_END] (timeout)" : String).length = 22 := by decide
  omega

theorem stream_start_ne (c : Char) :
    some ("[STREAM_START]" : String) ≠ some ("[STREAM]".push c) := by
  intro h
  injection h with h
  have hl := congrArg String.length h
  rw [length_stream_push] at hl
  have h1 : ("[STREAM_START]" : String).length = 14 := by decide
  omega

theorem stream_end_msg_ne (m : String) (c : Char) :
    some ("[STREAM_END] " ++ m) ≠ some ("[STREAM]".push c) := by
  intro h
  injection h with h
  have hl := congrArg String.length h
  rw [length_stream_push] at hl
  simp only [String.length_append] at hl
  have h1 : ("[STREAM_END] " : String).length = 13 := by decide
  omega

theorem stream_end_empty_ne (c : Char) :
    some ("[STREAM_END]" : String) ≠ some ("[STREAM]".push c) := by
  intro h
  injection h with h
  have hl := congrArg String.length h
  rw [length_stream_push] at hl
  have h1 : ("[STREAM_END]" : String).length = 12 := by decide
  omega

/-- Post-gate part of the lockout argument: whatever branch of
`decodeDetection` fires, the emitted event is never `[STREAM]c` for a
character `c` still inside its lockout window. -/
theorem decodeDetection_no_locked_char (cfg : CodecConfig) (f : ℚ) (mv : ℕ) (now : Int)
    (st : DecoderState) (c : Char) (t : Int)
    (hmem : (c, t) ∈ st.recentCharacters) (hlock : now - t < cfg.CHARACTER_LOCKOUT_TIME)
    (hwin : cfg.CHARACTER_LOCKOUT_TIME ≤ cfg.recentFilterWindow) :
    (decodeDetection cfg f mv now st).2 ≠ some ("[STREAM]".push c) := by
  unfold decodeDetection
  dsimp only
  split_ifs with h1 h2 h3 h4 h5 h6 h7 h8 h9 h10 h11
  all_goals try exact stream_end_timeout_ne _ c
  all_goals try exact stream_end_timeout_empty_ne c
  all_goals try exact stream_start_ne c
  all_goals try exact stream_end_msg_ne _ c
  all_goals try exact stream_end_empty_ne c
  all_goals try simp
  cases hfc : frequencyToChar cfg.CHAR_FREQUENCIES f with
  | none => simp [hfc]
  | some ch =>
    simp only [hfc]
    split_ifs with hacc
    · intro heq
      injection heq with heq
      have hcc := push_stream_injective _ _ heq
      rw [hcc] at hacc
      rw [shouldAddCharacter_lockout cfg st.recentCharacters c t now hmem hlock hwin] at hacc
      simp at hacc
    · simp

/-- C4: the decoder never accepts the same character twice within the
lockout window: if `(c, t)` is recorded in the recent-character window and a
decode tick happens at time `now` with `now − t < CHARACTER_LOCKOUT_TIME`,
that tick emits no `[STREAM]c` event (in either codec variant, whose filter
window is at least as long as the lockout window). -/
theorem character_lockout_no_duplicate (cfg : CodecConfig)
    (hvariant : cfg = slowCodec ∨ cfg = fastCodec)
    (frequencyData : List ℕ) (sampleRate : ℕ) (now : Int) (st : DecoderState)
    (c : Char) (t : Int)
    (hmem : (c, t) ∈ st.recentCharacters)
    (hlock : now - t < cfg.CHARACTER_LOCKOUT_TIME) :
    (decodeAudio cfg frequencyData sampleRate now st).2 ≠ some ("[STREAM]".push c) := by
  have hwin : cfg.CHARACTER_LOCKOUT_TIME ≤ cfg.recentFilterWindow := by
    rcases hvariant with h | h <;> rw [h] <;> decide
  unfold decodeAudio
  dsimp only
  split_ifs with h1 h2 h3 h4
  · simp
  · simp
  · simp
  · exact decodeDetection_no_locked_char cfg _ _ now _ c t hmem hlock hwin
  · exact decodeDetection_no_locked_char cfg _ _ now _ c t hmem hlock hwin

theorem character_lockout_no_duplicate_witness :
    ((('A', (9000 : Int)) ∈
        ({ resetDecoder with isReceivingMessage := true,
                             recentCharacters := [('A', 9000)] } : DecoderState).recentCharacters) ∧
      ((9500 : Int) - 9000 < slowCodec.CHARACTER_LOCKOUT_TIME)) ∧
    (decodeAudio slowCodec (0 :: 200 :: List.replicate 46 0) 48000 9500
        { resetDecoder with isReceivingMessage := true,
                            recentCharacters := [('A', 9000)] }).2
      ≠ some ("[STREAM]".push 'A') :=
  ⟨⟨by decide, by decide⟩,
   character_lockout_no_duplicate slowCodec (Or.inl rfl) _ 48000 9500 _ 'A' 9000
     (by decide) (by decide)⟩

/-! ## C1: transmission timeout -/

/-- C1 (counterexample): the timeout check does NOT override the signal
threshold / range / debounce gates of the same tick.  Here the decoder has
been `RECEIVING` since time 0 and is called at time 60000 (10 s past the
50 s ceiling of the slow variant) with a silent snapshot: the call returns
`null` and the decoder stays `RECEIVING` with its buffer intact, instead of
force-transitioning to `IDLE` with a `(timeout)` event. -/
theorem decode_timeout_not_overriding_counterexample :
    ((resetDecoder.transmissionStartTime = 0) ∧
      ((60000 : Int) - 0 > slowCodec.transmissionTimeout)) ∧
    (decodeAudio slowCodec [0] 48000 60000
        { resetDecoder with isReceivingMessage := true, messageBuffer := "HI" }).2 = none ∧
    (decodeAudio slowCodec [0] 48000 60000
        { resetDecoder with isReceivingMessage := true, messageBuffer := "HI" }).1.isReceivingMessage
      = true ∧
    (decodeAudio slowCodec [0] 48000 60000
        { resetDecoder with isReceivingMessage := true, messageBuffer := "HI" }).1.messageBuffer
      = "HI" := by
  decide

/-- C1 (amended): for every call to `decodeAudio` made while the decoder is
`RECEIVING` and the elapsed time since `transmissionStartTime` exceeds the
timeout ceiling (50 s slow variant, 15 s fast variant), **provided the tick's
snapshot passes the signal-threshold, frequency-range and debounce gates**
(which run first and short-circuit to `null`), the call force-transitions
the decoder to `IDLE`, clears the buffer, and returns a `[STREAM_END]` event
carrying the accumulated buffer (if non-empty) and a `(timeout)` suffix;
on such a tick the timeout overrides the marker and character checks. -/
theorem decode_timeout_forces_stream_end (cfg : CodecConfig)
    (_hvariant : cfg = slowCodec ∨ cfg = fastCodec)
    (frequencyData : List ℕ) (sampleRate : ℕ) (now : Int) (st : DecoderState)
    (hrecv : st.isReceivingMessage = true)
    (htime : now - st.transmissionStartTime > cfg.transmissionTimeout)
    (hsig : ¬ (findPeak frequencyData).2 < SIGNAL_THRESHOLD)
    (hrange : ¬ (binFrequencyOf frequencyData sampleRate < MINIMUM_VALID_FREQUENCY ∨
                 binFrequencyOf frequencyData sampleRate > MAXIMUM_VALID_FREQUENCY))
    (hdeb : ¬ (qabs (qsub (binFrequencyOf frequencyData sampleRate) st.lastDetectedFrequency) < 15 ∧
               now - st.lastDetectedTime < cfg.DEBOUNCE_TIME)) :
    (decodeAudio cfg frequencyData sampleRate now st).1.isReceivingMessage = false ∧
    (decodeAudio cfg frequencyData sampleRate now st).1.messageBuffer = "" ∧
    (decodeAudio cfg frequencyData sampleRate now st).2 =
      some (if st.messageBuffer.length > 0
            then "[STREAM_END] " ++ st.messageBuffer ++ " (timeout)"
            else "[STREAM_END] (timeout)") := by
  unfold decodeAudio
  dsimp only
  rw [if_neg hsig, if_neg hrange, if_neg hdeb]
  unfold decodeDetection
  dsimp only
  split_ifs with h1 h2 h3 h4 h5 <;>
    simp_all

/-- Concrete state for the C1 witness: `RECEIVING` since time 0 with
buffer `"HI"`. -/
def timeoutWitnessState : DecoderState :=
  { resetDecoder with isReceivingMessage := true, messageBuffer := "HI" }

theorem decode_timeout_forces_stream_end_witness :
    (timeoutWitnessState.isReceivingMessage = true ∧
      ((60000 : Int) - timeoutWitnessState.transmissionStartTime
        > slowCodec.transmissionTimeout)) ∧
    (decodeAudio slowCodec (0 :: 200 :: List.replicate 22 0) 48000 60000
        timeoutWitnessState).1.isReceivingMessage = false ∧
    (decodeAudio slowCodec (0 :: 200 :: List.replicate 22 0) 48000 60000
        timeoutWitnessState).1.messageBuffer = "" ∧
    (decodeAudio slowCodec (0 :: 200 :: List.replicate 22 0) 48000 60000
        timeoutWitnessState).2
      = some (if timeoutWitnessState.messageBuffer.length > 0
              then "[STREAM_END] " ++ timeoutWitnessState.messageBuffer ++ " (timeout)"
              else "[STREAM_END] (timeout)") :=
  ⟨⟨by decide, by decide⟩,
   decode_timeout_forces_stream_end slowCodec (Or.inl rfl)
     (0 :: 200 :: List.replicate 22 0) 48000 60000 timeoutWitnessState
     (by decide) (by decide) (by decide) (by decide) (by decide)⟩

/-! ## C2: start-marker double confirmation -/

/-- A frequency within `FREQUENCY_TOLERANCE` of either variant's start
marker automatically lies inside the valid band `[400, 8300]`. -/
theorem start_tolerance_in_range (cfg : CodecConfig)
    (hvariant : cfg = slowCodec ∨ cfg = fastCodec) (f : ℚ)
    (htol : qabs (qsub f cfg.START_FREQUENCY) < FREQUENCY_TOLERANCE) :
    ¬(f < MINIMUM_VALID_FREQUENCY ∨ f > MAXIMUM_VALID_FREQUENCY) := by
  rw [qabs_eq, qsub_eq, abs_lt] at htol
  intro hcon
  rcases hvariant with h | h <;> subst h <;>
    simp only [slowCodec, fastCodec, FREQUENCY_TOLERANCE, MINIMUM_VALID_FREQUENCY,
      MAXIMUM_VALID_FREQUENCY] at htol hcon <;>
    rcases hcon with hc | hc <;> linarith [htol.1, htol.2]

/-- Effect of one tick whose snapshot passes all gates and qualifies as a
start marker while the decoder is `IDLE`: the confirmation counter is
incremented, and on reaching 2 the `RECEIVING` transition commits. -/
theorem decode_start_tick (cfg : CodecConfig) (fd : List ℕ) (sr : ℕ) (t : Int)
    (st : DecoderState)
    (hidle : st.isReceivingMessage = false)
    (hsig : (findPeak fd).2 > SIGNAL_THRESHOLD)
    (htol : qabs (qsub (binFrequencyOf fd sr) cfg.START_FREQUENCY) < FREQUENCY_TOLERANCE)
    (hrange : ¬(binFrequencyOf fd sr < MINIMUM_VALID_FREQUENCY ∨
                binFrequencyOf fd sr > MAXIMUM_VALID_FREQUENCY))
    (hdeb : ¬(qabs (qsub (binFrequencyOf fd sr) st.lastDetectedFrequency) < 15 ∧
              t - st.lastDetectedTime < cfg.DEBOUNCE_TIME)) :
    decodeAudio cfg fd sr t st =
      if st.startMarkerDetectionCount + 1 ≥ 2 then
        ({ st with lastDetectedFrequency := binFrequencyOf fd sr, lastDetectedTime := t,
                   isReceivingMessage := true, messageBuffer := "",
                   transmissionStartTime := t, startMarkerDetectionCount := 0,
                   recentCharacters := [], charFrequencyCounts := [] },
         some "[STREAM_START]")
      else
        ({ st with lastDetectedFrequency := binFrequencyOf fd sr, lastDetectedTime := t,
                   startMarkerDetectionCount := st.startMarkerDetectionCount + 1 }, none) := by
  unfold decodeAudio
  dsimp only
  rw [if_neg (Nat.not_lt.mpr (Nat.le_of_lt hsig)), if_neg hrange, if_neg hdeb, if_pos hsig]
  unfold decodeDetection
  dsimp only
  rw [if_neg (by simp [hidle]), if_pos ⟨by simp [hidle], htol, hsig⟩]

/-- `decodeDetection` on an `IDLE` state with a non-qualifying detection:
no event, and the start-marker confirmation counter is reset to 0. -/
theorem decodeDetection_idle_nonmatching (cfg : CodecConfig) (f : ℚ) (mv : ℕ)
    (t : Int) (st : DecoderState)
    (hidle : st.isReceivingMessage = false)
    (hnm : ¬(qabs (qsub f cfg.START_FREQUENCY) < FREQUENCY_TOLERANCE ∧
             mv > SIGNAL_THRESHOLD)) :
    (decodeDetection cfg f mv t st).2 = none ∧
    (decodeDetection cfg f mv t st).1.startMarkerDetectionCount = 0 := by
  unfold decodeDetection
  dsimp only
  split_ifs <;>
    first
      | exact ⟨rfl, rfl⟩
      | simp_all

/-- Effect of one tick that passes all gates while `IDLE` but does not
qualify as a start marker: the confirmation counter is reset to 0 and the
tick yields nothing. -/
theorem decode_idle_nonmatching_tick (cfg : CodecConfig) (fd : List ℕ) (sr : ℕ) (t : Int)
    (st : DecoderState)
    (hidle : st.isReceivingMessage = false)
    (hsig : ¬ (findPeak fd).2 < SIGNAL_THRESHOLD)
    (hrange : ¬(binFrequencyOf fd sr < MINIMUM_VALID_FREQUENCY ∨
                binFrequencyOf fd sr > MAXIMUM_VALID_FREQUENCY))
    (hdeb : ¬(qabs (qsub (binFrequencyOf fd sr) st.lastDetectedFrequency) < 15 ∧
              t - st.lastDetectedTime < cfg.DEBOUNCE_TIME))
    (hnm : ¬(qabs (qsub (binFrequencyOf fd sr) cfg.START_FREQUENCY) < FREQUENCY_TOLERANCE ∧
             (findPeak fd).2 > SIGNAL_THRESHOLD)) :
    (decodeAudio cfg fd sr t st).2 = none ∧
    (decodeAudio cfg fd sr t st).1.startMarkerDetectionCount = 0 := by
  unfold decodeAudio
  dsimp only
  rw [if_neg hsig, if_neg hrange, if_neg hdeb]
  by_cases hmv : (findPeak fd).2 > SIGNAL_THRESHOLD
  · rw [if_pos hmv]
    exact decodeDetection_idle_nonmatching cfg _ _ t _ hidle hnm
  · rw [if_neg hmv]
    exact decodeDetection_idle_nonmatching cfg _ _ t _ hidle hnm

/-- C2 (counterexample): two defects of the claim as stated.  (a) A
below-threshold (silent) tick while `IDLE` is a non-matching tick, yet it
returns at the signal-threshold gate and does NOT reset the start-marker
confirmation counter.  (b) Two immediately consecutive qualifying ticks
(16 ms apart, same 1000 Hz peak, strength 200) do not commit the
transition: the second tick is suppressed by the temporal debounce, so no
`[STREAM_START]` is produced. -/
theorem decode_start_marker_counterexample :
    ((decodeAudio slowCodec [0] 48000 1000
        { resetDecoder with startMarkerDetectionCount := 1 }).1.startMarkerDetectionCount = 1 ∧
     (decodeAudio slowCodec [0] 48000 1000
        { resetDecoder with startMarkerDetectionCount := 1 }).2 = none) ∧
    ((decodeAudio slowCodec (0 :: 200 :: List.replicate 22 0) 48000 1016
        (decodeAudio slowCodec (0 :: 200 :: List.replicate 22 0) 48000 1000 resetDecoder).1).2
       = none ∧
     (decodeAudio slowCodec (0 :: 200 :: List.replicate 22 0) 48000 1016
        (decodeAudio slowCodec (0 :: 200 :: List.replicate 22 0) 48000 1000 resetDecoder).1).1.isReceivingMessage
       = false) := by
  constructor
  · constructor <;> decide
  · constructor <;> decide

/-- C2 (amended): while `IDLE` with a zero confirmation counter, two
qualifying start-marker ticks (peak reproducing the start-marker frequency
within tolerance at strength strictly above `SIGNAL_THRESHOLD`) commit the
transition to `RECEIVING` and yield exactly one `[STREAM_START]` — the
first tick yields nothing — **provided each tick also passes the debounce
gate** (in particular the two ticks are at least `DEBOUNCE_TIME` apart);
on commit the buffer is cleared, the transmission start time is recorded
and the recent-character history is cleared.  A non-matching tick while
`IDLE` resets the confirmation counter to 0 **only if it passes the
signal-threshold, range and debounce gates**; gate-suppressed ticks leave
the counter unchanged (second conjunct states the reset for gate-passing
ticks; the counterexample shows a silent tick leaves the counter alone). -/
theorem decode_start_marker_double_confirm :
    (∀ (cfg : CodecConfig), (cfg = slowCodec ∨ cfg = fastCodec) →
     ∀ (fd1 : List ℕ) (sr1 : ℕ) (t1 : Int) (fd2 : List ℕ) (sr2 : ℕ) (t2 : Int)
       (st : DecoderState),
       st.isReceivingMessage = false →
       st.startMarkerDetectionCount = 0 →
       (findPeak fd1).2 > SIGNAL_THRESHOLD →
       qabs (qsub (binFrequencyOf fd1 sr1) cfg.START_FREQUENCY) < FREQUENCY_TOLERANCE →
       ¬(qabs (qsub (binFrequencyOf fd1 sr1) st.lastDetectedFrequency) < 15 ∧
         t1 - st.lastDetectedTime < cfg.DEBOUNCE_TIME) →
       (findPeak fd2).2 > SIGNAL_THRESHOLD →
       qabs (qsub (binFrequencyOf fd2 sr2) cfg.START_FREQUENCY) < FREQUENCY_TOLERANCE →
       t2 - t1 ≥ cfg.DEBOUNCE_TIME →
       (decodeAudio cfg fd1 sr1 t1 st).2 = none ∧
       (decodeAudio cfg fd1 sr1 t1 st).1.isReceivingMessage = false ∧
       (decodeAudio cfg fd1 sr1 t1 st).1.startMarkerDetectionCount = 1 ∧
       (decodeAudio cfg fd2 sr2 t2 (decodeAudio cfg fd1 sr1 t1 st).1).2
         = some "[STREAM_START]" ∧
       (decodeAudio cfg fd2 sr2 t2 (decodeAudio cfg fd1 sr1 t1 st).1).1.isReceivingMessage
         = true ∧
       (decodeAudio cfg fd2 sr2 t2 (decodeAudio cfg fd1 sr1 t1 st).1).1.messageBuffer = "" ∧
       (decodeAudio cfg fd2 sr2 t2 (decodeAudio cfg fd1 sr1 t1 st).1).1.transmissionStartTime
         = t2 ∧
       (decodeAudio cfg fd2 sr2 t2 (decodeAudio cfg fd1 sr1 t1 st).1).1.recentCharacters
         = [] ∧
       (decodeAudio cfg fd2 sr2 t2 (decodeAudio cfg fd1 sr1 t1 st).1).1.startMarkerDetectionCount
         = 0) ∧
    (∀ (cfg : CodecConfig) (fd : List ℕ) (sr : ℕ) (t : Int) (st : DecoderState),
       st.isReceivingMessage = false →
       ¬ (findPeak fd).2 < SIGNAL_THRESHOLD →
       ¬(binFrequencyOf fd sr < MINIMUM_VALID_FREQUENCY ∨
         binFrequencyOf fd sr > MAXIMUM_VALID_FREQUENCY) →
       ¬(qabs (qsub (binFrequencyOf fd sr) st.lastDetectedFrequency) < 15 ∧
         t - st.lastDetectedTime < cfg.DEBOUNCE_TIME) →
       ¬(qabs (qsub (binFrequencyOf fd sr) cfg.START_FREQUENCY) < FREQUENCY_TOLERANCE ∧
         (findPeak fd).2 > SIGNAL_THRESHOLD) →
       (decodeAudio cfg fd sr t st).2 = none ∧
       (decodeAudio cfg fd sr t st).1.startMarkerDetectionCount = 0) := by
  constructor
  · intro cfg hvar fd1 sr1 t1 fd2 sr2 t2 st hidle hcnt hq1s hq1f hdeb1 hq2s hq2f hspace
    have h1 : decodeAudio cfg fd1 sr1 t1 st =
        ({ st with lastDetectedFrequency := binFrequencyOf fd1 sr1, lastDetectedTime := t1,
                   startMarkerDetectionCount := 1 }, none) := by
      have h := decode_start_tick cfg fd1 sr1 t1 st hidle hq1s hq1f
        (start_tolerance_in_range cfg hvar _ hq1f) hdeb1
      rw [hcnt] at h
      norm_num at h
      exact h
    have h2 : decodeAudio cfg fd2 sr2 t2 (decodeAudio cfg fd1 sr1 t1 st).1 =
        ({ st with lastDetectedFrequency := binFrequencyOf fd2 sr2, lastDetectedTime := t2,
                   isReceivingMessage := true, messageBuffer := "",
                   transmissionStartTime := t2, startMarkerDetectionCount := 0,
                   recentCharacters := [], charFrequencyCounts := [] }, some "[STREAM_START]") := by
      rw [h1]
      have h := decode_start_tick cfg fd2 sr2 t2
        ({ st with lastDetectedFrequency := binFrequencyOf fd1 sr1, lastDetectedTime := t1,
                   startMarkerDetectionCount := 1 })
        hidle hq2s hq2f (start_tolerance_in_range cfg hvar _ hq2f)
        (fun hc => absurd hc.2 (not_lt.mpr hspace))
      norm_num at h
      exact h
    rw [h1] at h2 ⊢
    rw [h2]
    exact ⟨rfl, hidle, rfl, rfl, rfl, rfl, rfl, rfl, rfl⟩
  · intro cfg fd sr t st hidle hsig hrange hdeb hnm
    exact decode_idle_nonmatching_tick cfg fd sr t st hidle hsig hrange hdeb hnm

theorem decode_start_marker_double_confirm_witness :
    ((decodeAudio slowCodec (0 :: 200 :: List.replicate 22 0) 48000 1000 resetDecoder).2
       = none ∧
     (decodeAudio slowCodec (0 :: 200 :: List.replicate 22 0) 48000 1400
        (decodeAudio slowCodec (0 :: 200 :: List.replicate 22 0) 48000 1000 resetDecoder).1).2
       = some "[STREAM_START]") ∧
    (decodeAudio slowCodec (0 :: 200 :: List.replicate 46 0) 48000 1000
        { resetDecoder with
            startMarkerDetectionCount := 1 }).1.startMarkerDetectionCount = 0 := by
  have hA := decode_start_marker_double_confirm.1 slowCodec (Or.inl rfl)
    (0 :: 200 :: List.replicate 22 0) 48000 1000 (0 :: 200 :: List.replicate 22 0) 48000 1400
    resetDecoder rfl rfl (by decide) (by decide) (by decide) (by decide) (by decide) (by decide)
  have hB := decode_start_marker_double_confirm.2 slowCodec
    (0 :: 200 :: List.replicate 46 0) 48000 1000
    { resetDecoder with startMarkerDetectionCount := 1 }
    rfl (by decide) (by decide) (by decide) (by decide)
  exact ⟨⟨hA.1, hA.2.2.2.1⟩, hB.2⟩

/-! ## C9: buffer/receiving invariant -/

/-- The decoder-session invariant of the spec: `messageBuffer` is non-empty
only while `isReceivingMessage` is `true`. -/
def DecoderInv (st : DecoderState) : Prop :=
  st.messageBuffer ≠ "" → st.isReceivingMessage = true

theorem decodeDetection_inv (cfg : CodecConfig) (f : ℚ) (mv : ℕ) (now : Int)
    (st : DecoderState) (h : DecoderInv st) :
    DecoderInv (decodeDetection cfg f mv now st).1 := by
  unfold decodeDetection
  dsimp only
  split_ifs with h1 h2 h3 h4 h5 h6 h7 h8 <;>
    try (simp only [DecoderInv] at h ⊢; intro hb; simp_all)
  cases hfc : frequencyToChar cfg.CHAR_FREQUENCIES f with
  | none => simp [hfc]
  | some ch =>
    simp only [hfc]
    split_ifs with hacc <;> rfl

theorem decodeAudio_inv (cfg : CodecConfig) (fd : List ℕ) (sr : ℕ) (now : Int)
    (st : DecoderState) (h : DecoderInv st) :
    DecoderInv (decodeAudio cfg fd sr now st).1 := by
  unfold decodeAudio
  dsimp only
  split_ifs with h1 h2 h3 h4
  · exact h
  · exact h
  · exact h
  · exact decodeDetection_inv _ _ _ _ _ h
  · exact decodeDetection_inv _ _ _ _ _ h

/-- C9: the decoder-session invariant — `messageBuffer` non-empty only
while `isReceivingMessage = true` — is preserved by every `decodeAudio`
tick (any variant, any snapshot); whenever the updated state has
`isReceivingMessage = false` its buffer is simultaneously empty; and the
state installed by `resetDecoder` (also the initial state) satisfies the
invariant. -/
theorem decoder_buffer_receiving_invariant (cfg : CodecConfig) (fd : List ℕ) (sr : ℕ)
    (now : Int) (st : DecoderState) (h : DecoderInv st) :
    DecoderInv (decodeAudio cfg fd sr now st).1 ∧
    ((decodeAudio cfg fd sr now st).1.isReceivingMessage = false →
      (decodeAudio cfg fd sr now st).1.messageBuffer = "") ∧
    DecoderInv resetDecoder := by
  have hmain := decodeAudio_inv cfg fd sr now st h
  refine ⟨hmain, ?_, fun hb => absurd rfl hb⟩
  intro hrecv
  by_contra hb
  rw [hmain hb] at hrecv
  exact Bool.noConfusion hrecv

theorem decoder_buffer_receiving_invariant_witness :
    DecoderInv { resetDecoder with isReceivingMessage := true, messageBuffer := "HI" } ∧
    DecoderInv (decodeAudio slowCodec [0] 48000 1000
      { resetDecoder with isReceivingMessage := true, messageBuffer := "HI" }).1 :=
  ⟨fun _ => rfl,
   (decoder_buffer_receiving_invariant slowCodec [0] 48000 1000
      { resetDecoder with isReceivingMessage := true, messageBuffer := "HI" }
      (fun _ => rfl)).1⟩

/-! ## C6: shape of the encode schedule -/

theorem scheduleChars_spec (cfg : CodecConfig) (hdur : 0 < cfg.CHARACTER_DURATION)
    (hgap : 0 < cfg.CHARACTER_GAP) :
    ∀ (chars : List Char) (t : ℚ),
      (∀ c ∈ chars, charToFrequency cfg.CHAR_FREQUENCIES c ≠ 0) →
      (scheduleChars cfg chars t).1.length = chars.length ∧
      t ≤ (scheduleChars cfg chars t).2 ∧
      (∀ tone ∈ (scheduleChars cfg chars t).1,
          t ≤ tone.startTime ∧ tone.duration = cfg.CHARACTER_DURATION ∧
          tone.startTime + tone.duration + cfg.CHARACTER_GAP ≤ (scheduleChars cfg chars t).2) ∧
      List.Chain' (fun a b => qadd a.startTime a.duration < b.startTime ∧
          a.startTime < b.startTime) (scheduleChars cfg chars t).1 := by
  intro chars
  induction chars with
  | nil =>
    intro t _
    simp [scheduleChars]
  | cons c rest ih =>
    intro t hsupp
    have hc : ¬ charToFrequency cfg.CHAR_FREQUENCIES c = 0 :=
      hsupp c (List.mem_cons_self _ _)
    have hrest : ∀ x ∈ rest, charToFrequency cfg.CHAR_FREQUENCIES x ≠ 0 :=
      fun x hx => hsupp x (List.mem_cons_of_mem _ hx)
    obtain ⟨ihlen, ihle, ihall, ihchain⟩ :=
      ih (qadd t (qadd cfg.CHARACTER_DURATION cfg.CHARACTER_GAP)) hrest
    have htlt : t < qadd t (qadd cfg.CHARACTER_DURATION cfg.CHARACTER_GAP) := by
      rw [qadd_eq, qadd_eq]; linarith
    unfold scheduleChars
    rw [if_neg hc]
    dsimp only
    refine ⟨by simp [ihlen], le_trans (le_of_lt htlt) ihle, ?_, ?_⟩
    · intro tone htone
      rcases List.mem_cons.mp htone with heq | hmem
      · subst heq
        refine ⟨le_refl t, rfl, ?_⟩
        calc t + cfg.CHARACTER_DURATION + cfg.CHARACTER_GAP
            = qadd t (qadd cfg.CHARACTER_DURATION cfg.CHARACTER_GAP) := by
              rw [qadd_eq, qadd_eq]; ring
          _ ≤ _ := ihle
      · obtain ⟨h1, h2, h3⟩ := ihall tone hmem
        exact ⟨le_trans (le_of_lt htlt) h1, h2, h3⟩
    · cases hn : (scheduleChars cfg rest
          (qadd t (qadd cfg.CHARACTER_DURATION cfg.CHARACTER_GAP))).1 with
      | nil => simp
      | cons y ys =>
        rw [List.chain'_cons]
        have hy : y ∈ (scheduleChars cfg rest
            (qadd t (qadd cfg.CHARACTER_DURATION cfg.CHARACTER_GAP))).1 := by
          rw [hn]; exact List.mem_cons_self _ _
        obtain ⟨hy1, _, _⟩ := ihall y hy
        rw [qadd_eq, qadd_eq] at hy1 htlt
        constructor
        · constructor
          · dsimp only
            rw [qadd_eq]
            linarith
          · dsimp only
            linarith
        · rw [← hn]
          exact ihchain

/-- C6: for every text containing only supported characters (after
uppercasing, every character maps to a non-zero frequency), the schedule
produced by `encodeText` has exactly `len(text)` character tones plus 2
marker tones — the start marker first and the end marker last — with
strictly increasing, non-overlapping start times (each tone's stop time
`startTime + duration` strictly precedes the next tone's start time). -/
theorem encodeText_schedule_shape (cfg : CodecConfig)
    (hvariant : cfg = slowCodec ∨ cfg = fastCodec)
    (text : List Char) (startTime : ℚ)
    (hsupp : ((text.map Char.toUpper).all
        (fun c => charToFrequency cfg.CHAR_FREQUENCIES c ≠ 0)) = true) :
    (encodeSchedule cfg text startTime).length = text.length + 2 ∧
    ((encodeSchedule cfg text startTime).head?).map Tone.frequency
      = some cfg.START_FREQUENCY ∧
    ((encodeSchedule cfg text startTime).getLast?).map Tone.frequency
      = some cfg.END_FREQUENCY ∧
    List.Chain' (fun a b => qadd a.startTime a.duration < b.startTime ∧
        a.startTime < b.startTime) (encodeSchedule cfg text startTime) := by
  have hdur : 0 < cfg.CHARACTER_DURATION := by
    rcases hvariant with h | h <;> rw [h] <;> decide
  have hgap : 0 < cfg.CHARACTER_GAP := by
    rcases hvariant with h | h <;> rw [h] <;> decide
  have hsm : 0 < cfg.START_MARKER_DURATION := by
    rcases hvariant with h | h <;> rw [h] <;> decide
  have hsupp' : ∀ c ∈ text.map Char.toUpper, charToFrequency cfg.CHAR_FREQUENCIES c ≠ 0 := by
    intro c hcmem
    have := List.all_eq_true.mp hsupp c hcmem
    simpa using this
  have hpos3 : (0 : ℚ) < mkRat 3 100 := by decide
  unfold encodeSchedule
  dsimp only
  generalize ht1 : qadd startTime (mkRat 3 100) = t1
  generalize hT : qadd (qadd t1 cfg.START_MARKER_DURATION) (mkRat 3 100) = T
  rw [qadd_eq, qadd_eq] at hT
  obtain ⟨hlen, hle, hall, hchain⟩ :=
    scheduleChars_spec cfg hdur hgap (text.map Char.toUpper) T hsupp'
  refine ⟨?_, ?_, ?_, ?_⟩
  · simp [hlen]
  · rfl
  · rw [← List.cons_append, List.getLast?_concat]
    rfl
  · rw [← List.cons_append, List.chain'_append]
    refine ⟨?_, List.chain'_singleton _, ?_⟩
    · rw [List.chain'_cons']
      refine ⟨?_, hchain⟩
      intro y hy
      obtain ⟨hy1, _, _⟩ := hall y (List.mem_of_mem_head? hy)
      dsimp only
      rw [qadd_eq]
      constructor <;> linarith
    · intro a ha b hb
      simp only [List.head?_cons, Option.mem_def, Option.some.injEq] at hb
      subst hb
      have hamem := List.mem_of_mem_getLast? ha
      rcases List.mem_cons.mp hamem with heq | hmem
      · subst heq
        dsimp only
        rw [qadd_eq, qadd_eq]
        constructor <;> linarith
      · obtain ⟨ha1, _, ha3⟩ := hall a hmem
        dsimp only
        rw [qadd_eq, qadd_eq]
        constructor <;> linarith

theorem encodeText_schedule_shape_witness :
    ((['H', 'I'].map Char.toUpper).all
        (fun c => charToFrequency slowCodec.CHAR_FREQUENCIES c ≠ 0) = true) ∧
    (encodeSchedule slowCodec ['H', 'I'] 0).length = 4 ∧
    ((encodeSchedule slowCodec ['H', 'I'] 0).head?).map Tone.frequency
      = some slowCodec.START_FREQUENCY ∧
    ((encodeSchedule slowCodec ['H', 'I'] 0).getLast?).map Tone.frequency
      = some slowCodec.END_FREQUENCY ∧
    List.Chain' (fun a b => qadd a.startTime a.duration < b.startTime ∧
        a.startTime < b.startTime) (encodeSchedule slowCodec ['H', 'I'] 0) := by
  have h := encodeText_schedule_shape slowCodec (Or.inl rfl) ['H', 'I'] 0 (by decide)
  exact ⟨by decide, h.1, h.2.1, h.2.2.1, h.2.2.2⟩
